import Mathlib

/-!
# httpclient: a shallow embedding of the request pipeline

Source files embedded here:

* `error.go`          : `ClientError`, `NewClientError`, `ClientError.Error`, `ClientError.Unwrap`
* `http_dump_req.go`  : `drainBody`, `bashEscape`, `curlcmd`, `dumpRequest`
* `client.go`         : `isErrorCode`, `Client.do`

Conventions of the embedding.

* A Go `string` is a Lean `String`; a `[]byte` is a `List Char` (`Bytes`), one character
  standing for one byte.  `string(b)` is `String.mk b`.
* A Go `error` is a `GoError`; `nil` errors and `nil` targets are `none`.
* A stream (`io.Reader`, `io.ReadCloser`) is the finite script of what it will deliver: the bytes
  still unread, how reading ends (end of file, or a failure) and what `Close` returns.
* State that the source mutates is passed explicitly: a function that reads a stream or writes a
  field returns the updated value.
* A run-time panic (calling a method on a nil interface) is the outcome `Outcome.panic`.
* Functions of the Go standard library that the source calls and whose result is only passed
  along (URL rendering, JSON, HTTP dumps) are fields of the structure `Lib`.
-/

namespace HttpClient

/-! ## Errors -/

/-- A byte slice, `[]byte`. -/
abbrev Bytes := List Char

/-- An error value produced outside of this package: by a stream, by the transport, by
`encoding/json`, by `net/http`.  `text` is what its `Error()` method returns. -/
structure LibError where
  text : String
deriving DecidableEq, Repr

/-- A Go `error` value as the pipeline sees it: either created by the pipeline itself with
`errors.New`, or received from a library. -/
inductive GoError where
  | errorsNew (text : String)
  | lib (e : LibError)
deriving DecidableEq, Repr

/-- The `Error()` method of an error value. -/
def GoError.Error : GoError → String
  | .errorsNew text => text
  | .lib e => e.text

/-- The struct `ClientError` of `error.go`.  `Reason` is `none` for a nil error. -/
structure ClientError where
  Url : String
  StatusCode : Int
  Message : String
  Reason : Option GoError
deriving DecidableEq, Repr

/-- `NewClientError` of `error.go`. -/
def NewClientError (url : String) (statusCode : Int) (message : String) (err : Option GoError) :
    ClientError :=
  { Url := url, StatusCode := statusCode, Message := message, Reason := err }

/-- `strconv.Itoa`: the decimal rendering of an integer. -/
def Itoa (n : Int) : String :=
  if n < 0 then "-" ++ Nat.repr n.natAbs else Nat.repr n.toNat

/-- `ClientError.Error` of `error.go`: the writes to the `strings.Builder`, in source order. -/
def ClientError.Error (e : ClientError) : String :=
  let buf := ""
  let buf := buf ++ "httpclient: "
  let buf :=
    if e.Url ≠ "" then
      let buf := buf ++ "url="
      let buf := buf ++ e.Url
      buf.push ' '
    else buf
  let buf :=
    if e.StatusCode > 0 then
      let buf := buf ++ "statusCode="
      let buf := buf ++ Itoa e.StatusCode
      buf.push ' '
    else buf
  let buf := if e.Message ≠ "" then buf ++ e.Message else buf
  let buf :=
    match e.Reason with
    | some r =>
      let buf := buf ++ ": "
      buf ++ r.Error
    | none => buf
  buf

/-- `ClientError.Unwrap` of `error.go`. -/
def ClientError.Unwrap (e : ClientError) : Option GoError := e.Reason

/-! ## Streams, bodies, headers -/

/-- The result of running Go code that may panic. -/
inductive Outcome (α : Type) where
  | ret (a : α)
  | panic
deriving DecidableEq, Repr

/-- A stream (`io.Reader` / `io.ReadCloser`): `data` is what is still unread, `readErr` is how
reading ends once `data` is exhausted (`none`: `io.EOF`; `some e`: the read fails with `e`), and
`closeErr` is what `Close` returns. -/
structure Stream where
  data : Bytes
  readErr : Option LibError
  closeErr : Option LibError
deriving DecidableEq, Repr

/-- The stream after it has been read to its end. -/
def Stream.atEnd (s : Stream) : Stream := { s with data := [] }

/-- A value of type `io.ReadCloser`: the nil interface, the sentinel `http.NoBody`, or a stream. -/
inductive Body where
  | nil
  | noBody
  | stream (s : Stream)
deriving DecidableEq, Repr

/-- Reading a body to its end, as `ioutil.ReadAll(r)` and `(*bytes.Buffer).ReadFrom(r)` do: the
bytes read, the error (`none` when the end of the stream was reached), and the body afterwards.
Calling `Read` on the nil interface panics; `http.NoBody` is at its end at once. -/
def Body.readToEnd : Body → Outcome (Bytes × Option LibError × Body)
  | .nil => .panic
  | .noBody => .ret ([], none, .noBody)
  | .stream s => .ret (s.data, s.readErr, .stream s.atEnd)

/-- The body after it has been read to its end; the nil body is not read. -/
def Body.atEnd : Body → Body
  | .nil => .nil
  | .noBody => .noBody
  | .stream s => .stream s.atEnd

/-- `ioutil.ReadAll(r)`, for a caller that drops the stream afterwards. -/
def ReadAll (r : Body) : Outcome (Bytes × Option LibError) :=
  match r.readToEnd with
  | .panic => .panic
  | .ret (b, err, _) => .ret (b, err)

/-- `http.Header`, `url.Values`: a Go `map[string][]string`, as the list of its entries. -/
abbrev Header := List (String × List String)

/-- See `Header`. -/
abbrev Values := List (String × List String)

/-- The map index expression `h[key]`: the nil slice when the key is absent. -/
def Header.index (h : Header) (key : String) : List String :=
  (h.lookup key).getD []

/-- The map assignment `h[key] = value`. -/
def Header.assign (h : Header) (key : String) (value : List String) : Header :=
  (key, value) :: h.filter (fun kv => kv.1 != key)

/-- `http.Header.Get(key)` for a key in canonical form (the source only calls it with the
constant `Content-Type`): the first value stored under the key, or the empty string. -/
def Header.Get (h : Header) (key : String) : String :=
  match h.index key with
  | [] => ""
  | v :: _ => v

/-- `http.Header.Add(key, value)` for a key in canonical form: `h[key] = append(h[key], value)`. -/
def Header.Add (h : Header) (key value : String) : Header :=
  h.assign key (h.index key ++ [value])

/-- The loop `for key, value := range headers { h[key] = value }`.  The iteration order of a Go
map is unspecified; the entries are assigned last to first, so that an entry of the list that is
shadowed by an earlier one with the same key (which a Go map cannot hold) stays shadowed. -/
def Header.assignAll (h : Header) (headers : Header) : Header :=
  headers.foldr (fun kv acc => acc.assign kv.1 kv.2) h

/-- `strings.Contains(s, substr)`. -/
def stringsContains (s substr : String) : Bool :=
  (s.data.tails).any (fun t => substr.data.isPrefixOf t)

/-- The constant `HeaderContentType` of `client.go`. -/
def HeaderContentType : String := "Content-Type"

/-- The constant `MIMEApplicationJSON` of `client.go`. -/
def MIMEApplicationJSON : String := "application/json"

/-! ## Requests, responses and the library -/

/-- The fields of `url.URL` that the pipeline sets or reads. -/
structure URL where
  Scheme : String
  Host : String
  Path : String
  RawQuery : String
deriving DecidableEq, Repr

/-- The fields of `http.Request` that the pipeline sets or reads. -/
structure Request where
  Method : String
  URL : HttpClient.URL
  Header : HttpClient.Header
  Body : HttpClient.Body
deriving DecidableEq, Repr

/-- The fields of `http.Response` that the pipeline reads. -/
structure Response where
  StatusCode : Int
  Body : HttpClient.Body
deriving DecidableEq, Repr

/-- A `context.Context` value; a nil context is `none : Option Context`. -/
abbrev Context := Unit

/-- The Go standard library as the pipeline uses it, for request bodies of type `V`, success
targets of type `R` and error targets of type `E`. -/
structure Lib (V R E : Type) where
  /-- `(*url.URL).String()`. -/
  URLString : URL → String
  /-- `url.Values.Encode()`. -/
  Encode : Values → String
  /-- `url.Parse`, followed by the normalisation of the host that `http.NewRequestWithContext`
  applies. -/
  Parse : String → Except LibError URL
  /-- The method check of `http.NewRequestWithContext`: the error for an invalid method. -/
  checkMethod : String → Option LibError
  /-- `json.Marshal(v)`. -/
  Marshal : V → Except LibError Bytes
  /-- `json.Unmarshal(data, verr)`: the target afterwards, and the error. -/
  Unmarshal : Bytes → E → E × Option LibError
  /-- `json.NewDecoder(r).Decode(vresp)` on a stream that holds `data` and then ends as
  `readErr` says: the target afterwards, and the error. -/
  Decode : Bytes → Option LibError → R → R × Option LibError
  /-- `httputil.DumpRequest(req, false)`, its error dropped. -/
  DumpRequest : Request → String
  /-- `httputil.DumpResponse(resp, false)`, its error dropped. -/
  DumpResponse : Response → String
  /-- `json.Indent(dst, src, "", "  ")`: what it appends to `dst`, `none` when `src` is not
  valid JSON (then nothing is appended). -/
  Indent : Bytes → Option String

/-- `(*url.URL).Redacted()`: `String()` with the password replaced; the URLs of the pipeline
carry no user information, so it is `String()`. -/
def URL.Redacted {V R E : Type} (lib : Lib V R E) (u : URL) : String :=
  lib.URLString u

/-! ## `http_dump_req.go` -/

/-- `drainBody` of `http_dump_req.go`.  The three results are `r1`, `r2`, `err`.  When `ReadFrom`
or `Close` fails the stream `b` that is returned has been read as far as it could be. -/
def drainBody (b : Body) : Body × Body × Option LibError :=
  match b with
  | .nil => (.noBody, .noBody, none)
  | .noBody => (.noBody, .noBody, none)
  | .stream s =>
    -- var buf bytes.Buffer; buf.ReadFrom(b)
    let buf := s.data
    let b := Body.stream s.atEnd
    match s.readErr with
    | some err => (.nil, b, some err)
    | none =>
      match s.closeErr with
      | some err => (.nil, b, some err)
      | none =>
        (.stream { data := buf, readErr := none, closeErr := none },
         .stream { data := buf, readErr := none, closeErr := none }, none)

/-- `bashEscape` of `http_dump_req.go`. -/
def bashEscape (str : String) : String :=
  "\x27" ++ str.replace "\x27" "\x27\\\x27\x27" ++ "\x27"

/-- `curlcmd` of `http_dump_req.go`.  It reads `req.Body`, so the request is returned as well. -/
def curlcmd {V R E : Type} (lib : Lib V R E) (req : Request) : String × Request :=
  let cmd : List String := []
  let cmd := cmd ++ ["curl"]
  let cmd := if req.URL.Scheme = "https" then cmd ++ ["-k"] else cmd
  let cmd := cmd ++ ["-X", bashEscape req.Method]
  let tail (cmd : List String) (req : Request) : String × Request :=
    let keys := req.Header.map (fun kv => kv.1)
    let keys := keys.mergeSort (fun a b => decide (a ≤ b))
    let cmd := keys.foldl
      (fun cmd k => cmd ++ ["-H", bashEscape (k ++ ": " ++ " ".intercalate (req.Header.index k))])
      cmd
    let cmd := cmd ++ [bashEscape (lib.URLString req.URL)]
    (" ".intercalate cmd, req)
  match req.Body with
  | .nil => tail cmd req                  -- req.Body == nil: the body is not read
  | body =>
    -- buff.ReadFrom(req.Body)
    let (buff, err) : Bytes × Option LibError :=
      match body with
      | .stream s => (s.data, s.readErr)
      | _ => ([], none)
    let req := { req with Body := body.atEnd }
    match err with
    | some _ => ("", req)
    | none =>
      let cmd := if buff.length > 0 then cmd ++ ["-d", bashEscape (String.mk buff)] else cmd
      tail cmd req

/-- What `dumpRequest` leaves behind: the text it prints, the request and the response, whose
bodies it has read or replaced, and the record `indented` of the byte slices it has passed to
`json.Indent`, in call order. -/
structure Dumped where
  out : String
  req : Request
  resp : Response
  indented : List Bytes
deriving DecidableEq, Repr

/-- `dumpRequest` of `http_dump_req.go`. -/
def dumpRequest {V R E : Type} (lib : Lib V R E) (req : Request) (resp : Response) :
    Outcome Dumped :=
  let buf := ""
  let buf := buf ++ "\n"
  let buf := buf ++ "=================\n"
  let buf := buf ++ ">>>> request <<<<\n"
  let buf := buf ++ "=================\n"
  let buf := buf ++ "\n"
  let buf := buf ++ ">>>> command <<<<\n"
  let buf := buf ++ "\n"
  let ct := req.Header.Get "Content-Type"
  let (buf, req) :=
    if req.Method = "GET" ∨ stringsContains ct "application/json" = true ∨
        stringsContains ct "application/x-www-form-urlencoded" = true then
      let (s, req) := curlcmd lib req
      let buf := buf ++ s
      (buf ++ "\n", req)
    else (buf, req)
  let buf := buf ++ "\n"
  let buf := buf ++ ">>>> request dump <<<<\n"
  let buf := buf ++ "\n"
  let out := lib.DumpRequest req
  let buf := buf ++ out
  let afterRequest (buf : String) (req : Request) (indented : List Bytes) : Outcome Dumped :=
    let buf := buf ++ "**** response ****\n"
    let buf := buf ++ "\n"
    let out := lib.DumpResponse resp
    let buf := buf ++ out
    -- resp.Body, respBody, _ = drainBody(resp.Body)
    let (r1, respBody, _) := drainBody resp.Body
    let resp := { resp with Body := r1 }
    match ReadAll respBody with
    | .panic => .panic
    | .ret (respBodyData, _) =>
      let buf := buf ++ (lib.Indent respBodyData).getD ""
      let buf := buf ++ "\n"
      let buf := buf ++ "=====================\n"
      let buf := buf ++ ">>>> end request <<<<\n"
      let buf := buf ++ "=====================\n"
      .ret { out := buf ++ "\n", req := req, resp := resp,
             indented := indented ++ [respBodyData] }
  if stringsContains (req.Header.Get "Content-Type") "application/json" = true then
    match req.Body.readToEnd with
    | .panic => .panic
    | .ret (reqBody, _, body) =>
      let req := { req with Body := body }
      let buf := buf ++ (lib.Indent reqBody).getD ""
      let buf := buf ++ "\n\n"
      afterRequest buf req [reqBody]
  else afterRequest buf req []

/-! ### The two streams of a successful drain, with the memory they share

`drainBody` returns `ioutil.NopCloser(&buf)` and `ioutil.NopCloser(bytes.NewReader(buf.Bytes()))`.
The slice `buf.Bytes()` aliases the backing array of `buf`, so both streams read from the same
array.  `Drained` is that memory; `read1` and `read2` are `(*bytes.Buffer).Read` and
`(*bytes.Reader).Read` on it, for a destination slice `p` of length `n`. -/

/-- The memory behind the two streams of a successful `drainBody`: the backing array `arr` that
`buf.ReadFrom` has filled, the buffer `buf` (its slice `buf.buf = arr[0:bufLen]` and its read
offset `buf.off`), and the `bytes.Reader` (its slice `s = arr[0:sLen]` and its index `i`). -/
structure Drained where
  arr : Bytes
  bufLen : Nat
  bufOff : Nat
  sLen : Nat
  sI : Nat
deriving DecidableEq, Repr

/-- The memory right after `drainBody` has read the bytes `B` and built the two streams. -/
def Drained.init (B : Bytes) : Drained :=
  { arr := B, bufLen := B.length, bufOff := 0, sLen := B.length, sI := 0 }

/-- `(*bytes.Buffer).Read(p)` with `len(p) = n` on the first stream: the bytes copied into `p`,
whether `io.EOF` is returned, and the memory afterwards.  An empty buffer is reset
(`b.buf = b.buf[:0]`, `b.off = 0`) and returns `io.EOF`, unless `len(p) = 0`. -/
def Drained.read1 (d : Drained) (n : Nat) : Bytes × Bool × Drained :=
  if d.bufLen ≤ d.bufOff then
    let d := { d with bufLen := 0, bufOff := 0 }
    if n = 0 then ([], false, d) else ([], true, d)
  else
    let k := min n (d.bufLen - d.bufOff)
    (((d.arr.take d.bufLen).drop d.bufOff).take k, false, { d with bufOff := d.bufOff + k })

/-- `(*bytes.Reader).Read(p)` with `len(p) = n` on the second stream. -/
def Drained.read2 (d : Drained) (n : Nat) : Bytes × Bool × Drained :=
  if d.sLen ≤ d.sI then ([], true, d)
  else
    let k := min n (d.sLen - d.sI)
    (((d.arr.take d.sLen).drop d.sI).take k, false, { d with sI := d.sI + k })

/-- The first stream as a `Stream`: what is still unread of it. -/
def Drained.view1 (d : Drained) : Stream :=
  { data := (d.arr.take d.bufLen).drop d.bufOff, readErr := none, closeErr := none }

/-- The second stream as a `Stream`: what is still unread of it. -/
def Drained.view2 (d : Drained) : Stream :=
  { data := (d.arr.take d.sLen).drop d.sI, readErr := none, closeErr := none }

/-- One `Read` call on one of the two streams, with a destination of `n` bytes. -/
inductive ReadOp where
  | r1 (n : Nat)
  | r2 (n : Nat)
deriving DecidableEq, Repr

/-- Running a sequence of `Read` calls, in order: the bytes that the calls on the first stream
have delivered, those that the calls on the second stream have delivered, and the memory
afterwards. -/
def Drained.run : List ReadOp → Drained → Bytes × Bytes × Drained
  | [], d => ([], [], d)
  | .r1 n :: ops, d =>
    let (b, _, d) := d.read1 n
    let (o1, o2, d) := Drained.run ops d
    (b ++ o1, o2, d)
  | .r2 n :: ops, d =>
    let (b, _, d) := d.read2 n
    let (o1, o2, d) := Drained.run ops d
    (o1, b ++ o2, d)

/-- Reading the first stream to its end, as the loop of `ioutil.ReadAll` does, with a destination
of `n` bytes in each call and at most `fuel` calls: the bytes read, or `none` when `fuel` calls
did not reach `io.EOF`. -/
def Drained.readAll1 : Nat → Nat → Drained → Option Bytes
  | 0, _, _ => none
  | fuel + 1, n, d =>
    match d.read1 n with
    | (b, true, _) => some b
    | (b, false, d) => (Drained.readAll1 fuel n d).map (fun rest => b ++ rest)

/-- Reading the second stream to its end; see `Drained.readAll1`. -/
def Drained.readAll2 : Nat → Nat → Drained → Option Bytes
  | 0, _, _ => none
  | fuel + 1, n, d =>
    match d.read2 n with
    | (b, true, _) => some b
    | (b, false, d) => (Drained.readAll2 fuel n d).map (fun rest => b ++ rest)

/-! ## `client.go` -/

/-- The value `vbody` passed to `Client.do`, by the case of the type switch that takes it. -/
inductive VBody (V : Type) where
  /-- `[]byte`. -/
  | bytes (t : Bytes)
  /-- `*bytes.Buffer` whose unread part is `t`. -/
  | buffer (t : Bytes)
  /-- A value that implements `io.ReadCloser`. -/
  | readCloser (t : Stream)
  /-- A `*bytes.Reader` or `*strings.Reader` whose unread part is `t`: an `io.Reader` of which
  `http.NewRequestWithContext` knows the length. -/
  | sizedReader (t : Bytes)
  /-- Any other `io.Reader`; it has no `Close`, so `closeErr` is not looked at. -/
  | reader (t : Stream)
  /-- Any other value: it is encoded as JSON. -/
  | value (t : V)

/-- The variable `body io.Reader` of `Client.do`, by its dynamic type. -/
inductive IoReader where
  | nil
  | bytesBuffer (b : Bytes)
  | sizedReader (b : Bytes)
  | readCloser (s : Stream)
  | reader (s : Stream)
deriving DecidableEq, Repr

/-- The field `Body` that `http.NewRequestWithContext` gives the request: the reader itself when
it is an `io.ReadCloser`, `io.NopCloser(body)` otherwise, and `http.NoBody` for a
`*bytes.Buffer`, `*bytes.Reader` or `*strings.Reader` of length 0. -/
def IoReader.toBody : IoReader → Body
  | .nil => .nil
  | .readCloser s => .stream s
  | .bytesBuffer b =>
    if b.length = 0 then .noBody else .stream { data := b, readErr := none, closeErr := none }
  | .sizedReader b =>
    if b.length = 0 then .noBody else .stream { data := b, readErr := none, closeErr := none }
  | .reader s => .stream { data := s.data, readErr := s.readErr, closeErr := none }

/-- `http.NewRequestWithContext(ctx, method, url, body)`. -/
def NewRequestWithContext {V R E : Type} (lib : Lib V R E) (ctx : Option Context)
    (method url : String) (body : IoReader) : Except LibError Request :=
  let method := if method = "" then "GET" else method
  match lib.checkMethod method with
  | some err => .error err
  | none =>
    match ctx with
    | none => .error { text := "net/http: nil Context" }
    | some _ =>
      match lib.Parse url with
      | .error err => .error err
      | .ok u => .ok { Method := method, URL := u, Header := [], Body := body.toBody }

/-- The auth hook `func(req *http.Request)`: it is given the headers and the URL of the in-flight
request and returns them as it leaves them. -/
abbrev AuthFn := Header → URL → Header × URL

/-- The struct `Client` of `client.go`.  `authfn` is `none` when no hook is set.  `client` is
`c.client.Do` reduced to its transport: the response, or the error, for a request. -/
structure Client where
  url : URL
  authfn : Option AuthFn
  client : Request → Except LibError Response

/-- `c.client.Do(req)`: `http.Client` hands back the response of the transport, with an empty
stream in place of a nil `Body`, or the error of the transport. -/
def Client.Do (c : Client) (req : Request) : Except LibError Response :=
  match c.client req with
  | .error err => .error err
  | .ok resp =>
    match resp.Body with
    | .nil => .ok { resp with Body := .stream { data := [], readErr := none, closeErr := none } }
    | _ => .ok resp

/-- `isErrorCode` of `client.go`. -/
def isErrorCode (code : Int) : Bool := decide (code ≥ 400)

/-- What a call of `Client.do` leaves behind: the error it returns (`none` for nil), the two
targets as the call leaves them, and what it printed. -/
structure Result (R E : Type) where
  err : Option ClientError
  vresp : Option R
  verr : Option E
  stdout : String

/-- The state of `Client.do` when it reaches `c.client.Do(req)`: the local variables `safeurl`,
`req` and `reqBody`. -/
structure Prepared where
  safeurl : String
  req : Request
  reqBody : Body
deriving DecidableEq, Repr

/-- `Client.do` of `client.go`, from its first line up to the call of `c.client.Do`: the request
that is handed to the transport, or the error that is returned before. -/
def Client.prepare {V R E : Type} (lib : Lib V R E) (DumpRequest : Bool) (c : Client)
    (ctx : Option Context) (method path : String) (query : Values) (headers : Header)
    (vbody : Option (VBody V)) : Except ClientError Prepared :=
  let u : URL := { Scheme := c.url.Scheme, Host := c.url.Host, Path := path, RawQuery := "" }
  -- save url for logging error.
  let safeurl := u.Redacted lib
  -- now, we can set the query
  let u := { u with RawQuery := lib.Encode query }
  let body : Except ClientError IoReader :=
    match vbody with
    | none => .ok .nil
    | some (.bytes t) => .ok (.bytesBuffer t)
    | some (.buffer t) => .ok (.bytesBuffer t)
    | some (.readCloser t) => .ok (.readCloser t)
    | some (.sizedReader t) => .ok (.sizedReader t)
    | some (.reader t) => .ok (.reader t)
    | some (.value t) =>
      match lib.Marshal t with
      | .error err =>
        .error (NewClientError safeurl 0 "encode request body failed" (some (.lib err)))
      | .ok b => .ok (.bytesBuffer b)
  match body with
  | .error e => .error e
  | .ok body =>
    match NewRequestWithContext lib ctx method (lib.URLString u) body with
    | .error err =>
      .error (NewClientError safeurl 0 "create http request failed" (some (.lib err)))
    | .ok req =>
      let req :=
        match c.authfn with
        | some authfn =>
          let (h, u) := authfn req.Header req.URL
          { req with Header := h, URL := u }
        | none => req
      let req := { req with Header := req.Header.assignAll headers }
      -- add content-type "application/json" if missing
      let req :=
        if req.Header.Get HeaderContentType = "" ∧ vbody.isSome then
          { req with Header := req.Header.Add HeaderContentType MIMEApplicationJSON }
        else req
      let reqBody : Body := .nil
      let (req, reqBody) :=
        if DumpRequest then
          let (r1, r2, _) := drainBody req.Body
          ({ req with Body := r1 }, r2)
        else (req, reqBody)
      .ok { safeurl := safeurl, req := req, reqBody := reqBody }

/-- `Client.do` of `client.go`, from `if isErrorCode(resp.StatusCode)` to its end: the
classification of the response and the decoding.  `stdout` is what has been printed so far. -/
def Client.respond {V R E : Type} (lib : Lib V R E) (safeurl : String) (resp : Response)
    (vresp : Option R) (verr : Option E) (stdout : String) : Outcome (Result R E) :=
  if isErrorCode resp.StatusCode then
    match ReadAll resp.Body with
    | .panic => .panic
    | .ret (_, some err) =>
      .ret { err := some (NewClientError safeurl resp.StatusCode
               "read response error body failed" (some (.lib err))),
             vresp := vresp, verr := verr, stdout := stdout }
    | .ret (respBody, none) =>
      let decoded : Option E × Option LibError :=
        match verr with
        | some t =>
          let (t, err) := lib.Unmarshal respBody t
          (some t, err)
        | none => (none, none)
      match decoded with
      | (verr, some err) =>
        .ret { err := some (NewClientError safeurl resp.StatusCode
                 "decode response body failed" (some (.lib err))),
               vresp := vresp, verr := verr, stdout := stdout }
      | (verr, none) =>
        .ret { err := some (NewClientError safeurl resp.StatusCode
                 "http returned error status code"
                 (some (.errorsNew (String.mk respBody)))),
               vresp := vresp, verr := verr, stdout := stdout }
  else
    match vresp with
    | some t =>
      -- json.NewDecoder(resp.Body).Decode(vresp)
      match resp.Body with
      | .nil => .panic
      | .noBody =>
        match lib.Decode [] none t with
        | (t, some err) =>
          .ret { err := some (NewClientError safeurl resp.StatusCode
                   "decode response body failed" (some (.lib err))),
                 vresp := some t, verr := verr, stdout := stdout }
        | (t, none) => .ret { err := none, vresp := some t, verr := verr, stdout := stdout }
      | .stream s =>
        match lib.Decode s.data s.readErr t with
        | (t, some err) =>
          .ret { err := some (NewClientError safeurl resp.StatusCode
                   "decode response body failed" (some (.lib err))),
                 vresp := some t, verr := verr, stdout := stdout }
        | (t, none) => .ret { err := none, vresp := some t, verr := verr, stdout := stdout }
    | none => .ret { err := none, vresp := vresp, verr := verr, stdout := stdout }

/-- `Client.do` of `client.go`, from the line after `defer resp.Body.Close()` to its end: the
dump, when `DumpRequest` is set, and then `Client.respond` on the response as the dump leaves
it. -/
def Client.finish {V R E : Type} (lib : Lib V R E) (DumpRequest : Bool) (p : Prepared)
    (resp : Response) (vresp : Option R) (verr : Option E) : Outcome (Result R E) :=
  if DumpRequest then
    -- req.Body = reqBody; dumpRequest(req, resp)
    let req := { p.req with Body := p.reqBody }
    match dumpRequest lib req resp with
    | .panic => .panic
    | .ret d => Client.respond lib p.safeurl d.resp vresp verr d.out
  else Client.respond lib p.safeurl resp vresp verr ""

/-- `Client.do` of `client.go` (`do` is a keyword of Lean).  `DumpRequest` is the package
variable of that name. -/
def Client.do_ {V R E : Type} (lib : Lib V R E) (DumpRequest : Bool) (c : Client)
    (ctx : Option Context) (method path : String) (query : Values) (headers : Header)
    (vbody : Option (VBody V)) (vresp : Option R) (verr : Option E) : Outcome (Result R E) :=
  match c.prepare lib DumpRequest ctx method path query headers vbody with
  | .error e => .ret { err := some e, vresp := vresp, verr := verr, stdout := "" }
  | .ok p =>
    match c.Do p.req with
    | .error err =>
      .ret { err := some (NewClientError p.safeurl 0 "http do request failed" (some (.lib err))),
             vresp := vresp, verr := verr, stdout := "" }
    | .ok resp => Client.finish lib DumpRequest p resp vresp verr

/-- The dynamic value of `body io.Reader` that the type switch of `Client.do` assigns for
`vbody`, when the encoding succeeds. -/
def bodyReader {V R E : Type} (lib : Lib V R E) : Option (VBody V) → Option IoReader
  | none => some .nil
  | some (.bytes t) => some (.bytesBuffer t)
  | some (.buffer t) => some (.bytesBuffer t)
  | some (.readCloser t) => some (.readCloser t)
  | some (.sizedReader t) => some (.sizedReader t)
  | some (.reader t) => some (.reader t)
  | some (.value t) =>
    match lib.Marshal t with
    | .error _ => none
    | .ok b => some (.bytesBuffer b)

/-- The headers of the request once the hook has run and the caller's headers are merged. -/
def mergedHeader (c : Client) (u : URL) (headers : Header) : Header :=
  (match c.authfn with
    | some authfn => (authfn [] u).1
    | none => []).assignAll headers

/-- The value `vbody` is raw bytes, a `*bytes.Buffer`, an `io.Reader` or an `io.ReadCloser`
that holds the byte sequence `B`: reading it delivers `B` and then the end of the stream.
Nothing is asked of `Close`. -/
def VBody.Holds {V : Type} : VBody V → Bytes → Prop
  | .bytes t, B => t = B
  | .buffer t, B => t = B
  | .sizedReader t, B => t = B
  | .reader s, B => s.data = B ∧ s.readErr = none
  | .readCloser s, B => s.data = B ∧ s.readErr = none
  | .value _, _ => False

/-- What `Close` returns on the value `vbody`, when it is an `io.ReadCloser`; the other bodies
are wrapped in `io.NopCloser`, whose `Close` returns nil. -/
def VBody.closeErr {V : Type} : VBody V → Option LibError
  | .readCloser s => s.closeErr
  | _ => none

/-- Two outcomes of `Client.do` are the same for the caller: both panic, or both return, with the
same error and the same targets (what was printed is not compared). -/
def Outcome.Agree {R E : Type} : Outcome (Result R E) → Outcome (Result R E) → Prop
  | .panic, .panic => True
  | .ret r1, .ret r2 => r1.err = r2.err ∧ r1.vresp = r2.vresp ∧ r1.verr = r2.verr
  | _, _ => False

/-! ## An instance to evaluate the pipeline on -/

/-- Parsing of `scheme://host/path?query`, for `demoLib`. -/
def demoParse (s : String) : URL :=
  let scheme := s.data.takeWhile (fun ch => ch != ':')
  match s.data.dropWhile (fun ch => ch != ':') with
  | ':' :: '/' :: '/' :: rest =>
    let host := rest.takeWhile (fun ch => ch != '/' && ch != '?')
    let tail := rest.dropWhile (fun ch => ch != '/' && ch != '?')
    { Scheme := String.mk scheme, Host := String.mk host,
      Path := String.mk (tail.takeWhile (fun ch => ch != '?')),
      RawQuery := String.mk ((tail.dropWhile (fun ch => ch != '?')).drop 1) }
  | _ =>
    { Scheme := "", Host := "",
      Path := String.mk (s.data.takeWhile (fun ch => ch != '?')),
      RawQuery := String.mk ((s.data.dropWhile (fun ch => ch != '?')).drop 1) }

/-- An instance of `Lib` on which the pipeline can be evaluated.  JSON values are kept as their
text, and a text counts as JSON when it starts with an opening brace. -/
def demoLib : Lib String String String where
  URLString u :=
    (if u.Scheme = "" then "" else u.Scheme ++ "://") ++ u.Host ++ u.Path ++
      (if u.RawQuery = "" then "" else "?" ++ u.RawQuery)
  Encode q := "&".intercalate (q.map (fun kv => kv.1 ++ "=" ++ ",".intercalate kv.2))
  Parse s := .ok (demoParse s)
  checkMethod m :=
    if m.data.all Char.isAlpha then none else some { text := "net/http: invalid method" }
  Marshal v := .ok v.data
  Unmarshal data t :=
    if data.head? = some '\x7b' then (String.mk data, none)
    else (t, some { text := "invalid character" })
  Decode data readErr t :=
    if data.head? = some '\x7b' then (String.mk data, none)
    else
      match readErr with
      | some e => (t, some e)
      | none => (t, some { text := "invalid character" })
  DumpRequest req := req.Method ++ " " ++ req.URL.Path ++ " HTTP/1.1\r\n\r\n"
  DumpResponse resp := "HTTP/0.0 " ++ Itoa resp.StatusCode ++ "\r\n\r\n"
  Indent src := if src.head? = some '\x7b' then some (String.mk src) else none

/-- A client for `http://localhost:8080` whose transport answers every request with `resp`. -/
def demoClient (authfn : Option AuthFn) (resp : Response) : Client :=
  { url := { Scheme := "http", Host := "localhost:8080", Path := "", RawQuery := "" },
    authfn := authfn, client := fun _ => .ok resp }

/-- The response `&http.Response{StatusCode: http.StatusOK}` of the tests. -/
def demoOK : Response := { StatusCode := 200, Body := .nil }

/-- The state in which `Client.do` reaches the transport for the call
`do(ctx, "POST", "/x", nil, nil, []byte("x"), ...)` on `demoClient`, with `DumpRequest` off. -/
def demoPrepared : Prepared :=
  { safeurl := "http://localhost:8080/x",
    req := { Method := "POST",
             URL := { Scheme := "http", Host := "localhost:8080", Path := "/x",
                      RawQuery := "" },
             Header := [("Content-Type", ["application/json"])],
             Body := .stream { data := ['x'], readErr := none, closeErr := none } },
    reqBody := .nil }

/-- The response of the test `read http error response failed`: status 400 and the body
`ioutil.NopCloser(iotest.ErrReader(errors.New("err")))`. -/
def demoUnreadable : Response :=
  { StatusCode := 400,
    Body := .stream { data := [], readErr := some { text := "err" }, closeErr := none } }

/-- A `POST` request with `Content-Type: application/json` whose body holds the JSON document
`B`, as `Client.do` passes it to `dumpRequest`. -/
def demoJSONRequest (B : Bytes) : Request :=
  { Method := "POST",
    URL := { Scheme := "http", Host := "localhost:8080", Path := "/x", RawQuery := "" },
    Header := [("Content-Type", ["application/json"])],
    Body := .stream { data := B, readErr := none, closeErr := none } }

/-- The state in which `Client.do` reaches the transport for the call
`do(ctx, "GET", "/x", nil, nil, nil, ...)` on `demoClient`, with `DumpRequest` on. -/
def demoPreparedDump : Prepared :=
  { safeurl := "http://localhost:8080/x",
    req := { Method := "GET",
             URL := { Scheme := "http", Host := "localhost:8080", Path := "/x",
                      RawQuery := "" },
             Header := [],
             Body := .noBody },
    reqBody := .noBody }

/-- A response with status 200 whose body is not JSON and fails to be read after five bytes. -/
def demoMalformed : Response :=
  { StatusCode := 200,
    Body := .stream { data := ['o', 'o', 'p', 's', '!'], readErr := some { text := "err" },
                      closeErr := none } }

/-- The response of the test `http code 400`: `&http.Response{StatusCode: 400}`. -/
def demoBadRequest : Response := { StatusCode := 400, Body := .nil }

/-- What `Client.do` returns for `demoBadRequest` on the path `/x`, with `DumpRequest` off. -/
def demoBadRequestResult : Result String String :=
  { err := some { Url := "http://localhost:8080/x", StatusCode := 400,
                  Message := "http returned error status code",
                  Reason := some (.errorsNew "") },
    vresp := none, verr := none, stdout := "" }

/-- An `io.ReadCloser` that delivers the byte `x` and then the end of the stream, and whose
`Close` returns an error. -/
def demoCloseFails : Stream :=
  { data := ['x'], readErr := none, closeErr := some { text := "close failed" } }

/-! ## Theorems -/

theorem push_eq_append_singleton (s : String) (c : Char) :
    s.push c = s ++ String.singleton c := by
  apply String.ext
  simp [String.singleton]

/-- C5: `e.Error()` is the tag `httpclient: `, then `url=<Url> ` when `Url` is non-empty, then
`statusCode=<decimal StatusCode> ` when `StatusCode > 0`, then `Message`, then `: <cause>` when
the cause is present; an empty `Url`, a `StatusCode ≤ 0`, an empty `Message` and a nil `Reason`
contribute the empty string. -/
theorem ClientError.Error_eq (e : ClientError) :
    e.Error =
      "httpclient: "
        ++ (if e.Url ≠ "" then "url=" ++ e.Url ++ " " else "")
        ++ (if e.StatusCode > 0 then "statusCode=" ++ Itoa e.StatusCode ++ " " else "")
        ++ e.Message
        ++ (match e.Reason with
            | some r => ": " ++ r.Error
            | none => "") := by
  have hpush : ∀ s : String, s.push ' ' = s ++ " " := fun s =>
    push_eq_append_singleton s ' '
  have hnil : ∀ s : String, s ++ "" = s := fun s => by
    apply String.ext; simp
  have hnil2 : ∀ s : String, "" ++ s = s := fun s => by
    apply String.ext; simp
  unfold ClientError.Error
  by_cases hu : e.Url = "" <;> by_cases hs : e.StatusCode > 0 <;>
    by_cases hm : e.Message = "" <;> cases hr : e.Reason <;>
    simp only [hu, hs, hm, hpush, hnil, hnil2, ne_eq,
      not_true_eq_false, not_false_eq_true, if_true, if_false, ite_true, ite_false] <;>
    apply String.ext <;> simp [String.data_append]

/-! ### Headers -/

theorem Header.lookup_assign_self (h : Header) (key : String) (value : List String) :
    (h.assign key value).lookup key = some value := by
  simp [Header.assign, List.lookup]

theorem Header.lookup_assign_ne (h : Header) (key k : String) (value : List String)
    (hk : k ≠ key) : (h.assign key value).lookup k = h.lookup k := by
  have hfilter : ∀ l : Header, (l.filter (fun kv => kv.1 != key)).lookup k = l.lookup k := by
    intro l
    induction l with
    | nil => rfl
    | cons kv l ih =>
      obtain ⟨a, b⟩ := kv
      by_cases ha : a = key
      · subst ha
        have hka : (k == a) = false := by simpa using hk
        simp [List.filter, List.lookup, hka, ih]
      · have hne : (a != key) = true := by simpa using ha
        by_cases hka : k = a
        · subst hka
          simp [List.filter, List.lookup, hne]
        · have hka2 : (k == a) = false := by simpa using hka
          simp [List.filter, List.lookup, hne, hka2, ih]
  have hkk : (k == key) = false := by simpa using hk
  simp [Header.assign, List.lookup, hkk, hfilter]

theorem Header.lookup_assignAll (h headers : Header) (k : String) :
    (h.assignAll headers).lookup k =
      match headers.lookup k with
      | some v => some v
      | none => h.lookup k := by
  induction headers with
  | nil => rfl
  | cons kv headers ih =>
    obtain ⟨a, b⟩ := kv
    by_cases hka : k = a
    · subst hka
      simp [Header.assignAll, List.foldr, Header.lookup_assign_self, List.lookup]
    · have hka2 : (k == a) = false := by simpa using hka
      have := Header.lookup_assign_ne (Header.assignAll h headers) a k b hka
      simp only [Header.assignAll, List.foldr] at this ih ⊢
      rw [this, ih]
      simp [List.lookup, hka2]

/-! ### The request that reaches the transport -/

theorem NewRequestWithContext_ok {V R E : Type} (lib : Lib V R E) (ctx : Option Context)
    (method url : String) (body : IoReader) (req : Request)
    (h : NewRequestWithContext lib ctx method url body = .ok req) :
    req.Header = [] ∧ req.Body = body.toBody ∧
      req.Method = (if method = "" then "GET" else method) ∧ lib.Parse url = .ok req.URL := by
  unfold NewRequestWithContext at h
  simp only at h
  cases hm : lib.checkMethod (if method = "" then "GET" else method) with
  | some err => simp [hm] at h
  | none =>
    cases ctx with
    | none => simp [hm] at h
    | some x =>
      cases hp : lib.Parse url with
      | error e => simp [hm, hp] at h
      | ok u =>
        simp only [hm, hp, Except.ok.injEq] at h
        subst h
        exact ⟨rfl, rfl, rfl, rfl⟩

theorem Client.prepare_ok {V R E : Type} (lib : Lib V R E) (dump : Bool) (c : Client)
    (ctx : Option Context) (method path : String) (query : Values) (headers : Header)
    (vbody : Option (VBody V)) (p : Prepared)
    (h : c.prepare lib dump ctx method path query headers vbody = .ok p) :
    ∃ body req0,
      bodyReader lib vbody = some body ∧
      NewRequestWithContext lib ctx method
        (lib.URLString { Scheme := c.url.Scheme, Host := c.url.Host, Path := path,
                         RawQuery := lib.Encode query }) body = .ok req0 ∧
      p.safeurl = lib.URLString { Scheme := c.url.Scheme, Host := c.url.Host, Path := path,
                                  RawQuery := "" } ∧
      p.req.Header =
        (if (mergedHeader c req0.URL headers).Get HeaderContentType = "" ∧ vbody.isSome then
          (mergedHeader c req0.URL headers).Add HeaderContentType MIMEApplicationJSON
         else mergedHeader c req0.URL headers) ∧
      p.req.Body = (if dump then (drainBody body.toBody).1 else body.toBody) ∧
      p.reqBody = (if dump then (drainBody body.toBody).2.1 else .nil) := by
  have key : ∀ body : IoReader, bodyReader lib vbody = some body →
      (match NewRequestWithContext lib ctx method
          (lib.URLString { Scheme := c.url.Scheme, Host := c.url.Host, Path := path,
                           RawQuery := lib.Encode query }) body with
        | .error err =>
          (Except.error (NewClientError
            (URL.Redacted lib { Scheme := c.url.Scheme, Host := c.url.Host, Path := path,
                                RawQuery := "" }) 0
            "create http request failed" (some (.lib err))) : Except ClientError Prepared)
        | .ok req =>
          let req :=
            match c.authfn with
            | some authfn =>
              let (h, u) := authfn req.Header req.URL
              { req with Header := h, URL := u }
            | none => req
          let req := { req with Header := req.Header.assignAll headers }
          let req :=
            if req.Header.Get HeaderContentType = "" ∧ vbody.isSome then
              { req with Header := req.Header.Add HeaderContentType MIMEApplicationJSON }
            else req
          let reqBody : Body := .nil
          let (req, reqBody) :=
            if dump then
              let (r1, r2, _) := drainBody req.Body
              ({ req with Body := r1 }, r2)
            else (req, reqBody)
          .ok { safeurl := URL.Redacted lib { Scheme := c.url.Scheme, Host := c.url.Host,
                                              Path := path, RawQuery := "" },
                req := req, reqBody := reqBody }) = .ok p →
      ∃ body req0,
        bodyReader lib vbody = some body ∧
        NewRequestWithContext lib ctx method
          (lib.URLString { Scheme := c.url.Scheme, Host := c.url.Host, Path := path,
                           RawQuery := lib.Encode query }) body = .ok req0 ∧
        p.safeurl = lib.URLString { Scheme := c.url.Scheme, Host := c.url.Host, Path := path,
                                    RawQuery := "" } ∧
        p.req.Header =
          (if (mergedHeader c req0.URL headers).Get HeaderContentType = "" ∧ vbody.isSome then
            (mergedHeader c req0.URL headers).Add HeaderContentType MIMEApplicationJSON
           else mergedHeader c req0.URL headers) ∧
        p.req.Body = (if dump then (drainBody body.toBody).1 else body.toBody) ∧
        p.reqBody = (if dump then (drainBody body.toBody).2.1 else .nil) := by
    intro body hbody hres
    cases hN : NewRequestWithContext lib ctx method
        (lib.URLString { Scheme := c.url.Scheme, Host := c.url.Host, Path := path,
                         RawQuery := lib.Encode query }) body with
    | error err => rw [hN] at hres; cases hres
    | ok req0 =>
      rw [hN] at hres
      obtain ⟨hH, hB, -, -⟩ := NewRequestWithContext_ok lib ctx method _ body req0 hN
      refine ⟨body, req0, hbody, hN, ?_⟩
      simp only [Except.ok.injEq] at hres
      subst hres
      cases hauth : c.authfn <;> cases dump <;>
        simp [mergedHeader, hauth, hH, hB, URL.Redacted] <;>
        split <;> simp_all
  unfold Client.prepare at h
  rcases vbody with _ | (t | t | t | t | t | t)
  · exact key _ rfl h
  · exact key _ rfl h
  · exact key _ rfl h
  · exact key _ rfl h
  · exact key _ rfl h
  · exact key _ rfl h
  · cases hM : lib.Marshal t with
    | error err => simp only [hM] at h; cases h
    | ok b =>
      simp only [hM] at h
      exact key (.bytesBuffer b) (by simp [bodyReader, hM]) h


theorem Header.Get_eq_empty_of_lookup_none (h : Header) (key : String)
    (hk : h.lookup key = none) : h.Get key = "" := by
  simp [Header.Get, Header.index, hk]

/-- C3 (amended): the `Content-Type` entry of the request handed to the transport is exactly
`application/json` when a body is supplied and neither the caller's headers nor the auth hook
carry an entry `Content-Type`; it is exactly the caller's list of values when the caller's
headers carry an entry under the key `Content-Type` and either no body is supplied or that entry
has a first value, which is not the empty string; it is absent when no body is supplied and
neither the caller nor the auth hook carry that entry. -/
theorem Client.prepare_content_type {V R E : Type} (lib : Lib V R E) (dump : Bool) (c : Client)
    (ctx : Option Context) (method path : String) (query : Values) (headers : Header)
    (vbody : Option (VBody V)) (p : Prepared)
    (h : c.prepare lib dump ctx method path query headers vbody = .ok p) :
    (vbody.isSome = true → headers.lookup "Content-Type" = none →
        (∀ f u, c.authfn = some f → (f [] u).1.lookup "Content-Type" = none) →
        p.req.Header.lookup "Content-Type" = some ["application/json"]) ∧
    (∀ vs, headers.lookup "Content-Type" = some vs →
        (vbody = none ∨ ∃ v w, vs = v :: w ∧ v ≠ "") →
        p.req.Header.lookup "Content-Type" = some vs) ∧
    (vbody = none → headers.lookup "Content-Type" = none →
        (∀ f u, c.authfn = some f → (f [] u).1.lookup "Content-Type" = none) →
        p.req.Header.lookup "Content-Type" = none) := by
  obtain ⟨body, req0, -, -, -, hH, -, -⟩ :=
    Client.prepare_ok lib dump c ctx method path query headers vbody p h
  have hmerged : ∀ k, (mergedHeader c req0.URL headers).lookup k =
      match headers.lookup k with
      | some v => some v
      | none => (match c.authfn with
                  | some authfn => (authfn [] req0.URL).1
                  | none => []).lookup k := by
    intro k
    simp only [mergedHeader]
    exact Header.lookup_assignAll _ headers k
  have hnone : headers.lookup "Content-Type" = none →
      (∀ f u, c.authfn = some f → (f [] u).1.lookup "Content-Type" = none) →
      (mergedHeader c req0.URL headers).lookup "Content-Type" = none := by
    intro hc ha
    rw [hmerged, hc]
    cases hf : c.authfn with
    | none => rfl
    | some f => exact ha f req0.URL hf
  refine ⟨?_, ?_, ?_⟩
  · intro hb hc ha
    have hl := hnone hc ha
    have hg := Header.Get_eq_empty_of_lookup_none _ _ hl
    rw [hH]
    simp only [HeaderContentType] at *
    rw [if_pos ⟨hg, hb⟩]
    simp [Header.Add, Header.lookup_assign_self, Header.index, hl, MIMEApplicationJSON]
  · intro vs hc hv
    have hl : (mergedHeader c req0.URL headers).lookup "Content-Type" = some vs := by
      rw [hmerged, hc]
    rw [hH]
    simp only [HeaderContentType] at *
    rcases hv with hv | hv
    · subst hv
      simpa using hl
    · obtain ⟨v, w, hvs, hv⟩ := hv
      subst hvs
      have hg : (mergedHeader c req0.URL headers).Get "Content-Type" = v := by
        simp [Header.Get, Header.index, hl]
      rw [if_neg (fun hh => hv (hg ▸ hh.1))]
      exact hl
  · intro hb hc ha
    subst hb
    rw [hH]
    simpa using hnone hc ha

/-- C3 (counterexample): with a body supplied, (1) a caller's header spelled `content-type` does
not keep the pipeline from adding `Content-Type: application/json`; (2) a `Content-Type` set by
the auth hook is sent although the caller's headers carry none, and not `application/json`;
(3) a caller's `Content-Type` whose value is the empty string gets `application/json` added. -/
theorem Client.prepare_content_type_counterexample :
    ((demoClient none demoOK).prepare demoLib false (some ()) "POST" "/x" []
        [("content-type", ["text/plain"])] (some (.bytes ['x']))).map (fun p => p.req.Header)
      = .ok [("Content-Type", ["application/json"]), ("content-type", ["text/plain"])] ∧
    ((demoClient (some (fun h u => (h.assign "Content-Type" ["text/plain"], u))) demoOK).prepare
        demoLib false (some ()) "POST" "/x" [] [] (some (.bytes ['x']))).map
        (fun p => p.req.Header)
      = .ok [("Content-Type", ["text/plain"])] ∧
    ((demoClient none demoOK).prepare demoLib false (some ()) "POST" "/x" []
        [("Content-Type", [""])] (some (.bytes ['x']))).map (fun p => p.req.Header)
      = .ok [("Content-Type", ["", "application/json"])] := by
  refine ⟨?_, ?_, ?_⟩ <;> rfl

/-- C3 (witness): a call with the body `[]byte("x")`, no headers and no hook. -/
theorem Client.prepare_content_type_witness :
    (demoClient none demoOK).prepare demoLib false (some ()) "POST" "/x" [] []
        (some (.bytes ['x'])) = .ok demoPrepared ∧
      demoPrepared.req.Header.lookup "Content-Type" = some ["application/json"] :=
  ⟨rfl, (Client.prepare_content_type demoLib false (demoClient none demoOK) (some ()) "POST" "/x"
    [] [] (some (.bytes ['x'])) demoPrepared rfl).1 rfl rfl (fun _ _ hf => by cases hf)⟩

/-! ### The body that reaches the transport -/

/-- For a body passed to `Client.do` as `[]byte`, `*bytes.Buffer`, `io.Reader` or `io.ReadCloser`
that holds the bytes `B`, reading the body of the request handed to the transport to its end
yields exactly `B` and no error: with `DumpRequest` off for every such body, whatever its `Close`
returns, and with `DumpRequest` on when its `Close` succeeds. -/
theorem Client.prepare_body_passthrough {V R E : Type} (lib : Lib V R E) (dump : Bool)
    (c : Client) (ctx : Option Context) (method path : String) (query : Values)
    (headers : Header) (vbody : VBody V) (B : Bytes) (p : Prepared)
    (hB : vbody.Holds B) (hclose : dump = true → vbody.closeErr = none)
    (h : c.prepare lib dump ctx method path query headers (some vbody) = .ok p) :
    ReadAll p.req.Body = .ret (B, none) := by
  obtain ⟨body, req0, hbody, -, -, -, hBody, -⟩ :=
    Client.prepare_ok lib dump c ctx method path query headers (some vbody) p h
  rw [hBody]
  cases vbody with
  | value t => exact absurd hB (by simp [VBody.Holds])
  | bytes t =>
    simp only [VBody.Holds] at hB
    subst hB
    simp only [bodyReader, Option.some.injEq] at hbody
    subst hbody
    cases t <;> cases dump <;> rfl
  | buffer t =>
    simp only [VBody.Holds] at hB
    subst hB
    simp only [bodyReader, Option.some.injEq] at hbody
    subst hbody
    cases t <;> cases dump <;> rfl
  | sizedReader t =>
    simp only [VBody.Holds] at hB
    subst hB
    simp only [bodyReader, Option.some.injEq] at hbody
    subst hbody
    cases t <;> cases dump <;> rfl
  | reader s =>
    obtain ⟨d, re, ce⟩ := s
    simp only [VBody.Holds] at hB
    obtain ⟨h1, h2⟩ := hB
    subst h1 h2
    simp only [bodyReader, Option.some.injEq] at hbody
    subst hbody
    cases dump <;> rfl
  | readCloser s =>
    obtain ⟨d, re, ce⟩ := s
    simp only [VBody.Holds] at hB
    obtain ⟨h1, h2⟩ := hB
    subst h1 h2
    simp only [bodyReader, Option.some.injEq] at hbody
    subst hbody
    cases dump with
    | false => rfl
    | true =>
      have hce : ce = none := by simpa [VBody.closeErr] using hclose rfl
      subst hce
      rfl

/-- The call of the test `send byte body`, with the one byte `x`. -/
theorem Client.prepare_body_passthrough_example :
    (VBody.bytes ['x'] : VBody String).Holds ['x'] ∧
      (demoClient none demoOK).prepare demoLib false (some ()) "POST" "/x" [] []
        (some (.bytes ['x'])) = .ok demoPrepared ∧
      ReadAll demoPrepared.req.Body = .ret (['x'], none) :=
  ⟨rfl, rfl, Client.prepare_body_passthrough demoLib false (demoClient none demoOK) (some ())
    "POST" "/x" [] [] (.bytes ['x']) ['x'] demoPrepared rfl (fun hd => by cases hd) rfl⟩

/-- C4 (the code at a failing input): for an `io.ReadCloser` that delivers the byte `x` and then
the end of the stream, and whose `Close` fails, the request handed to the transport has that
stream as its body when `DumpRequest` is off, and reading it to its end yields `x`; when
`DumpRequest` is on the request handed to the transport has the nil body, and reading it
panics: the byte `x` does not reach the transport. -/
theorem Client.prepare_body_close_failure :
    (VBody.readCloser demoCloseFails : VBody String).Holds ['x'] ∧
    ((demoClient none demoOK).prepare demoLib false (some ()) "POST" "/x" [] []
        (some (.readCloser demoCloseFails))).map (fun p => (p.req.Body, ReadAll p.req.Body))
      = .ok (.stream demoCloseFails, .ret (['x'], none)) ∧
    ((demoClient none demoOK).prepare demoLib true (some ()) "POST" "/x" [] []
        (some (.readCloser demoCloseFails))).map (fun p => (p.req.Body, ReadAll p.req.Body))
      = .ok (.nil, .panic) := by
  refine ⟨⟨rfl, rfl⟩, ?_, ?_⟩ <;> rfl

/-! ### The dump -/

theorem curlcmd_req {V R E : Type} (lib : Lib V R E) (req : Request) :
    (curlcmd lib req).2 = { req with Body := req.Body.atEnd } := by
  obtain ⟨m, u, h, b⟩ := req
  cases b with
  | nil => simp [curlcmd, Body.atEnd]
  | noBody => simp [curlcmd, Body.atEnd]
  | stream s =>
    cases hr : s.readErr <;> simp [curlcmd, Body.atEnd, hr]

theorem ReadAll_drainBody_snd (b : Body) :
    ∃ data err, ReadAll (drainBody b).2.1 = .ret (data, err) := by
  cases b with
  | nil => exact ⟨_, _, rfl⟩
  | noBody => exact ⟨_, _, rfl⟩
  | stream s =>
    obtain ⟨d, re, ce⟩ := s
    cases re <;> cases ce <;> exact ⟨_, _, rfl⟩

theorem dumpRequest_resp {V R E : Type} (lib : Lib V R E) (req : Request) (resp : Response)
    (d : Dumped) (h : dumpRequest lib req resp = .ret d) :
    d.resp = { resp with Body := (drainBody resp.Body).1 } := by
  obtain ⟨data, err, hra⟩ := ReadAll_drainBody_snd resp.Body
  unfold dumpRequest at h
  simp only [hra] at h
  repeat' split at h
  all_goals first
    | (cases h; done)
    | (simp only [Outcome.ret.injEq] at h; subst h; rfl)

theorem dumpRequest_ret {V R E : Type} (lib : Lib V R E) (req : Request) (resp : Response)
    (hb : req.Body ≠ .nil) : ∃ d, dumpRequest lib req resp = .ret d := by
  obtain ⟨data, err, hra⟩ := ReadAll_drainBody_snd resp.Body
  have hc := curlcmd_req lib req
  have hread : ∀ b : Body, b ≠ .nil → ∃ x, b.readToEnd = .ret x := by
    intro b hb
    cases b with
    | nil => exact absurd rfl hb
    | noBody => exact ⟨_, rfl⟩
    | stream s => exact ⟨_, rfl⟩
  have hend : req.Body.atEnd ≠ .nil := by
    cases hq : req.Body with
    | nil => exact absurd hq hb
    | noBody => simp [Body.atEnd]
    | stream s => simp [Body.atEnd]
  obtain ⟨x1, hx1⟩ := hread _ hb
  obtain ⟨x2, hx2⟩ := hread _ hend
  unfold dumpRequest
  simp only [hra]
  split
  · simp only [hc]
    split
    · simp only [hx2]
      exact ⟨_, rfl⟩
    · exact ⟨_, rfl⟩
  · dsimp only
    split
    · simp only [hx1]
      exact ⟨_, rfl⟩
    · exact ⟨_, rfl⟩

/-! ### The URL of the errors -/

theorem Client.prepare_error_url {V R E : Type} (lib : Lib V R E) (dump : Bool) (c : Client)
    (ctx : Option Context) (method path : String) (query : Values) (headers : Header)
    (vbody : Option (VBody V)) (e : ClientError)
    (h : c.prepare lib dump ctx method path query headers vbody = .error e) :
    e.Url = lib.URLString { Scheme := c.url.Scheme, Host := c.url.Host, Path := path,
                            RawQuery := "" } := by
  have key : ∀ body : IoReader,
      (match NewRequestWithContext lib ctx method
          (lib.URLString { Scheme := c.url.Scheme, Host := c.url.Host, Path := path,
                           RawQuery := lib.Encode query }) body with
        | .error err =>
          (Except.error (NewClientError
            (URL.Redacted lib { Scheme := c.url.Scheme, Host := c.url.Host, Path := path,
                                RawQuery := "" }) 0
            "create http request failed" (some (.lib err))) : Except ClientError Prepared)
        | .ok req =>
          let req :=
            match c.authfn with
            | some authfn =>
              let (h, u) := authfn req.Header req.URL
              { req with Header := h, URL := u }
            | none => req
          let req := { req with Header := req.Header.assignAll headers }
          let req :=
            if req.Header.Get HeaderContentType = "" ∧ vbody.isSome then
              { req with Header := req.Header.Add HeaderContentType MIMEApplicationJSON }
            else req
          let reqBody : Body := .nil
          let (req, reqBody) :=
            if dump then
              let (r1, r2, _) := drainBody req.Body
              ({ req with Body := r1 }, r2)
            else (req, reqBody)
          .ok { safeurl := URL.Redacted lib { Scheme := c.url.Scheme, Host := c.url.Host,
                                              Path := path, RawQuery := "" },
                req := req, reqBody := reqBody }) = .error e →
      e.Url = lib.URLString { Scheme := c.url.Scheme, Host := c.url.Host, Path := path,
                              RawQuery := "" } := by
    intro body hres
    cases hN : NewRequestWithContext lib ctx method
        (lib.URLString { Scheme := c.url.Scheme, Host := c.url.Host, Path := path,
                         RawQuery := lib.Encode query }) body with
    | error err =>
      rw [hN] at hres
      simp only [Except.error.injEq] at hres
      subst hres
      rfl
    | ok req0 =>
      rw [hN] at hres
      cases hres
  unfold Client.prepare at h
  rcases vbody with _ | (t | t | t | t | t | t)
  · exact key _ h
  · exact key _ h
  · exact key _ h
  · exact key _ h
  · exact key _ h
  · exact key _ h
  · cases hM : lib.Marshal t with
    | error err =>
      simp only [hM, Except.error.injEq] at h
      subst h
      rfl
    | ok b =>
      simp only [hM] at h
      exact key (.bytesBuffer b) h

theorem Client.respond_error_url {V R E : Type} (lib : Lib V R E) (safeurl : String)
    (resp : Response) (vresp : Option R) (verr : Option E) (stdout : String) (r : Result R E)
    (e : ClientError)
    (h : Client.respond lib safeurl resp vresp verr stdout = .ret r) (he : r.err = some e) :
    e.Url = safeurl := by
  unfold Client.respond at h
  dsimp only at h
  repeat' split at h
  all_goals first
    | (cases h; done)
    | (simp only [Outcome.ret.injEq] at h; subst h;
       simp only [Option.some.injEq] at he; subst he; rfl)
    | (simp only [Outcome.ret.injEq] at h; subst h; cases he)

theorem Client.finish_error_url {V R E : Type} (lib : Lib V R E) (dump : Bool) (p : Prepared)
    (resp : Response) (vresp : Option R) (verr : Option E) (r : Result R E) (e : ClientError)
    (h : Client.finish lib dump p resp vresp verr = .ret r) (he : r.err = some e) :
    e.Url = p.safeurl := by
  unfold Client.finish at h
  cases dump with
  | false => exact Client.respond_error_url lib _ _ _ _ _ r e h he
  | true =>
    simp only [if_true] at h
    cases hd : dumpRequest lib { p.req with Body := p.reqBody } resp with
    | panic => rw [hd] at h; cases h
    | ret d =>
      rw [hd] at h
      exact Client.respond_error_url lib _ _ _ _ _ r e h he

theorem Client.do_error_url {V R E : Type} (lib : Lib V R E) (dump : Bool) (c : Client)
    (ctx : Option Context) (method path : String) (query : Values) (headers : Header)
    (vbody : Option (VBody V)) (vresp : Option R) (verr : Option E) (r : Result R E)
    (e : ClientError)
    (h : c.do_ lib dump ctx method path query headers vbody vresp verr = .ret r)
    (he : r.err = some e) :
    e.Url = lib.URLString { Scheme := c.url.Scheme, Host := c.url.Host, Path := path,
                            RawQuery := "" } := by
  unfold Client.do_ at h
  cases hp : c.prepare lib dump ctx method path query headers vbody with
  | error e0 =>
    rw [hp] at h
    simp only [Outcome.ret.injEq] at h
    subst h
    simp only [Option.some.injEq] at he
    subst he
    exact Client.prepare_error_url lib dump c ctx method path query headers vbody e0 hp
  | ok p =>
    rw [hp] at h
    dsimp only at h
    obtain ⟨-, -, -, -, hsafe, -⟩ :=
      Client.prepare_ok lib dump c ctx method path query headers vbody p hp
    cases hd : c.Do p.req with
    | error err =>
      rw [hd] at h
      simp only [Outcome.ret.injEq] at h
      subst h
      simp only [Option.some.injEq] at he
      subst he
      exact hsafe
    | ok resp =>
      rw [hd] at h
      rw [← hsafe]
      exact Client.finish_error_url lib dump p resp vresp verr r e h he

/-- C6: the `Url` of an error returned by `Client.do` is the rendering of the URL made of the
client's scheme and host and the call's path, with an empty query; so two failing calls with the
same scheme, host and path return the same `Url`, whatever their queries, auth hooks, headers,
bodies, transports and `DumpRequest` settings are. -/
theorem Client.do_error_url_query_independent {V R E : Type} (lib : Lib V R E)
    (dump1 dump2 : Bool) (c1 c2 : Client) (ctx1 ctx2 : Option Context)
    (method1 method2 path : String) (query1 query2 : Values) (headers1 headers2 : Header)
    (vbody1 vbody2 : Option (VBody V)) (vresp1 vresp2 : Option R) (verr1 verr2 : Option E)
    (r1 r2 : Result R E) (e1 e2 : ClientError)
    (hscheme : c1.url.Scheme = c2.url.Scheme) (hhost : c1.url.Host = c2.url.Host)
    (h1 : c1.do_ lib dump1 ctx1 method1 path query1 headers1 vbody1 vresp1 verr1 = .ret r1)
    (he1 : r1.err = some e1)
    (h2 : c2.do_ lib dump2 ctx2 method2 path query2 headers2 vbody2 vresp2 verr2 = .ret r2)
    (he2 : r2.err = some e2) :
    e1.Url = lib.URLString { Scheme := c1.url.Scheme, Host := c1.url.Host, Path := path,
                             RawQuery := "" } ∧
      e1.Url = e2.Url := by
  have u1 := Client.do_error_url lib dump1 c1 ctx1 method1 path query1 headers1 vbody1 vresp1
    verr1 r1 e1 h1 he1
  have u2 := Client.do_error_url lib dump2 c2 ctx2 method2 path query2 headers2 vbody2 vresp2
    verr2 r2 e2 h2 he2
  refine ⟨u1, ?_⟩
  rw [u1, u2, hscheme, hhost]

/-- C6 (witness): two calls on the path `/x` that fail with status 400; the second one has the
query `hapikey=secret` and an auth hook that puts `token=t` into the query of the request. -/
theorem Client.do_error_url_query_independent_witness :
    (demoClient none demoBadRequest).do_ demoLib false (some ()) "GET" "/x" [] [] none none none
        = .ret demoBadRequestResult ∧
      (demoClient (some (fun h u => (h, { u with RawQuery := "token=t" }))) demoBadRequest).do_
        demoLib false (some ()) "GET" "/x" [("hapikey", ["secret"])] [] none none none
        = .ret demoBadRequestResult ∧
      ("http://localhost:8080/x" =
          demoLib.URLString { Scheme := "http", Host := "localhost:8080", Path := "/x",
                              RawQuery := "" } ∧
        "http://localhost:8080/x" = "http://localhost:8080/x") :=
  ⟨rfl, rfl,
    Client.do_error_url_query_independent demoLib false false (demoClient none demoBadRequest)
      (demoClient (some (fun h u => (h, { u with RawQuery := "token=t" }))) demoBadRequest)
      (some ()) (some ()) "GET" "GET" "/x" [] [("hapikey", ["secret"])] [] [] none none none none
      none none demoBadRequestResult demoBadRequestResult
      { Url := "http://localhost:8080/x", StatusCode := 400,
        Message := "http returned error status code", Reason := some (.errorsNew "") }
      { Url := "http://localhost:8080/x", StatusCode := 400,
        Message := "http returned error status code", Reason := some (.errorsNew "") }
      rfl rfl rfl rfl rfl rfl⟩

/-! ### Responses below 400 without a target -/

theorem drainBody_snd_ne_nil (b : Body) : (drainBody b).2.1 ≠ .nil := by
  cases b with
  | nil => simp [drainBody]
  | noBody => simp [drainBody]
  | stream s =>
    obtain ⟨d, re, ce⟩ := s
    cases re <;> cases ce <;> simp [drainBody]

theorem Client.Do_ok (c : Client) (req : Request) (resp : Response)
    (h : c.client req = .ok resp) :
    ∃ resp0, c.Do req = .ok resp0 ∧ resp0.StatusCode = resp.StatusCode ∧
      resp0.Body ≠ .nil ∧ (resp.Body ≠ .nil → resp0 = resp) := by
  unfold Client.Do
  rw [h]
  obtain ⟨code, b⟩ := resp
  cases b with
  | nil => exact ⟨_, rfl, rfl, by simp, by simp⟩
  | noBody => exact ⟨_, rfl, rfl, by simp, by simp⟩
  | stream s => exact ⟨_, rfl, rfl, by simp, by simp⟩

theorem isErrorCode_eq_false (code : Int) (h : code < 400) : isErrorCode code = false := by
  simp [isErrorCode, h]

theorem isErrorCode_eq_true (code : Int) (h : code ≥ 400) : isErrorCode code = true := by
  simp [isErrorCode, h]

/-- C2: when the transport returns a response with a status code below 400 and no success target
is given, `Client.do` returns nil and leaves the targets as they are, whatever the body of the
response is (absent, empty, not JSON, failing to be read or to be closed) and with `DumpRequest`
on or off. -/
theorem Client.do_success_no_target {V R E : Type} (lib : Lib V R E) (dump : Bool) (c : Client)
    (ctx : Option Context) (method path : String) (query : Values) (headers : Header)
    (vbody : Option (VBody V)) (verr : Option E) (p : Prepared) (resp : Response)
    (hp : c.prepare lib dump ctx method path query headers vbody = .ok p)
    (hdo : c.client p.req = .ok resp) (hcode : resp.StatusCode < 400) :
    ∃ r : Result R E,
      c.do_ lib dump ctx method path query headers vbody none verr = .ret r ∧
        r.err = none ∧ r.vresp = none ∧ r.verr = verr := by
  obtain ⟨resp0, hdo0, hcode0, -, -⟩ := Client.Do_ok c p.req resp hdo
  unfold Client.do_
  rw [hp]
  dsimp only
  rw [hdo0]
  dsimp only
  unfold Client.finish
  cases dump with
  | false =>
    simp only [Bool.false_eq_true, if_false]
    unfold Client.respond
    rw [isErrorCode_eq_false _ (hcode0 ▸ hcode)]
    exact ⟨_, rfl, rfl, rfl, rfl⟩
  | true =>
    simp only [if_true]
    obtain ⟨body, req0, -, -, -, -, -, hrb⟩ :=
      Client.prepare_ok lib true c ctx method path query headers vbody p hp
    have hne : ({ p.req with Body := p.reqBody } : Request).Body ≠ .nil := by
      simp only [hrb, if_true]
      exact drainBody_snd_ne_nil _
    obtain ⟨d, hd⟩ := dumpRequest_ret lib { p.req with Body := p.reqBody } resp0 hne
    have hresp := dumpRequest_resp lib _ resp0 d hd
    rw [hd]
    dsimp only
    unfold Client.respond
    have : d.resp.StatusCode = resp0.StatusCode := by rw [hresp]
    rw [isErrorCode_eq_false _ (this ▸ hcode0 ▸ hcode)]
    exact ⟨_, rfl, rfl, rfl, rfl⟩

/-- C2 (witness): `DumpRequest` on, a response with status 200 whose body is not JSON and fails
to be read. -/
theorem Client.do_success_no_target_witness :
    ∃ r : Result String String,
      (demoClient none demoMalformed).do_ demoLib true (some ()) "GET" "/x" [] [] none none
          (some "kept") = .ret r ∧
        r.err = none ∧ r.vresp = none ∧ r.verr = some "kept" :=
  Client.do_success_no_target demoLib true (demoClient none demoMalformed) (some ()) "GET" "/x"
    [] [] none (some "kept") demoPreparedDump demoMalformed rfl rfl (by decide)

/-! ### The round trip of `drainBody` -/

theorem Drained.read1_view (d : Drained) (n : Nat) :
    (d.read1 n).1 ++ (d.read1 n).2.2.view1.data = d.view1.data ∧
      (d.read1 n).2.2.view2 = d.view2 := by
  unfold Drained.read1
  by_cases h : d.bufLen ≤ d.bufOff
  · have hnil : (List.take d.bufLen d.arr).drop d.bufOff = [] := by
      apply List.drop_eq_nil_of_le
      rw [List.length_take]
      omega
    by_cases hn : n = 0 <;> simp [h, hn, Drained.view1, Drained.view2, hnil]
  · simp only [h, if_false, Drained.view1, Drained.view2]
    refine ⟨?_, trivial⟩
    rw [← List.drop_drop]
    exact List.take_append_drop _ _

theorem Drained.read2_view (d : Drained) (n : Nat) :
    (d.read2 n).1 ++ (d.read2 n).2.2.view2.data = d.view2.data ∧
      (d.read2 n).2.2.view1 = d.view1 := by
  unfold Drained.read2
  by_cases h : d.sLen ≤ d.sI
  · have hnil : (List.take d.sLen d.arr).drop d.sI = [] := by
      apply List.drop_eq_nil_of_le
      rw [List.length_take]
      omega
    simp [h, Drained.view1, Drained.view2, hnil]
  · simp only [h, if_false, Drained.view1, Drained.view2]
    refine ⟨?_, trivial⟩
    rw [← List.drop_drop]
    exact List.take_append_drop _ _

theorem Drained.run_view (ops : List ReadOp) (d : Drained) :
    (d.run ops).1 ++ (d.run ops).2.2.view1.data = d.view1.data ∧
      (d.run ops).2.1 ++ (d.run ops).2.2.view2.data = d.view2.data := by
  induction ops generalizing d with
  | nil => simp [Drained.run]
  | cons op ops ih =>
    cases op with
    | r1 n =>
      obtain ⟨h1, h2⟩ := d.read1_view n
      obtain ⟨i1, i2⟩ := ih (d.read1 n).2.2
      simp only [Drained.run]
      refine ⟨?_, ?_⟩
      · rw [List.append_assoc, i1, h1]
      · rw [i2, h2]
    | r2 n =>
      obtain ⟨h1, h2⟩ := d.read2_view n
      obtain ⟨i1, i2⟩ := ih (d.read2 n).2.2
      simp only [Drained.run]
      refine ⟨?_, ?_⟩
      · rw [i1, h2]
      · rw [List.append_assoc, i2, h1]

theorem Drained.readAll1_eq (c : Nat) (fuel : Nat) (d : Drained)
    (h : d.bufLen - d.bufOff < fuel) : d.readAll1 fuel (c + 1) = some d.view1.data := by
  induction fuel generalizing d with
  | zero => omega
  | succ fuel ih =>
    obtain ⟨hv, -⟩ := d.read1_view (c + 1)
    unfold Drained.readAll1
    by_cases he : d.bufLen ≤ d.bufOff
    · have hr : d.read1 (c + 1) = ([], true, { d with bufLen := 0, bufOff := 0 }) := by
        simp [Drained.read1, he]
      rw [hr] at hv
      rw [hr]
      simp only [Drained.view1] at hv ⊢
      simpa using hv
    · have hr : d.read1 (c + 1) =
          (((d.arr.take d.bufLen).drop d.bufOff).take (min (c + 1) (d.bufLen - d.bufOff)), false,
            { d with bufOff := d.bufOff + min (c + 1) (d.bufLen - d.bufOff) }) := by
        simp [Drained.read1, he]
      rw [hr] at hv
      rw [hr]
      dsimp only at hv ⊢
      rw [ih _ (by dsimp only; omega)]
      simpa using hv

theorem Drained.readAll2_eq (c : Nat) (fuel : Nat) (d : Drained)
    (h : d.sLen - d.sI < fuel) : d.readAll2 fuel (c + 1) = some d.view2.data := by
  induction fuel generalizing d with
  | zero => omega
  | succ fuel ih =>
    obtain ⟨hv, -⟩ := d.read2_view (c + 1)
    unfold Drained.readAll2
    by_cases he : d.sLen ≤ d.sI
    · have hr : d.read2 (c + 1) = ([], true, d) := by
        simp [Drained.read2, he]
      have hnil : (List.take d.sLen d.arr).drop d.sI = [] := by
        apply List.drop_eq_nil_of_le
        rw [List.length_take]
        omega
      rw [hr]
      simp only [Drained.view2, hnil]
    · have hr : d.read2 (c + 1) =
          (((d.arr.take d.sLen).drop d.sI).take (min (c + 1) (d.sLen - d.sI)), false,
            { d with sI := d.sI + min (c + 1) (d.sLen - d.sI) }) := by
        simp [Drained.read2, he]
      rw [hr] at hv
      rw [hr]
      dsimp only at hv ⊢
      rw [ih _ (by dsimp only; omega)]
      simpa using hv

theorem Drained.run_cons_r1 (n : Nat) (ops : List ReadOp) (d : Drained) :
    d.run (.r1 n :: ops) =
      ((d.read1 n).1 ++ ((d.read1 n).2.2.run ops).1, ((d.read1 n).2.2.run ops).2.1,
        ((d.read1 n).2.2.run ops).2.2) := rfl

theorem Drained.run_cons_r2 (n : Nat) (ops : List ReadOp) (d : Drained) :
    d.run (.r2 n :: ops) =
      (((d.read2 n).2.2.run ops).1, (d.read2 n).1 ++ ((d.read2 n).2.2.run ops).2.1,
        ((d.read2 n).2.2.run ops).2.2) := rfl

theorem Drained.run_remaining (ops : List ReadOp) (d : Drained) :
    (d.run ops).2.2.bufLen - (d.run ops).2.2.bufOff ≤ d.bufLen - d.bufOff ∧
      (d.run ops).2.2.sLen - (d.run ops).2.2.sI ≤ d.sLen - d.sI := by
  induction ops generalizing d with
  | nil => simp [Drained.run]
  | cons op ops ih =>
    cases op with
    | r1 n =>
      obtain ⟨i1, i2⟩ := ih (d.read1 n).2.2
      rw [Drained.run_cons_r1]
      dsimp only
      have h1 : (d.read1 n).2.2.bufLen - (d.read1 n).2.2.bufOff ≤ d.bufLen - d.bufOff ∧
          (d.read1 n).2.2.sLen - (d.read1 n).2.2.sI = d.sLen - d.sI := by
        unfold Drained.read1
        by_cases he : d.bufLen ≤ d.bufOff
        · by_cases hn : n = 0 <;> simp [he, hn]
        · simp only [he, if_false]
          constructor
          · show d.bufLen - (d.bufOff + min n (d.bufLen - d.bufOff)) ≤ d.bufLen - d.bufOff
            omega
          · trivial
      omega
    | r2 n =>
      obtain ⟨i1, i2⟩ := ih (d.read2 n).2.2
      rw [Drained.run_cons_r2]
      dsimp only
      have h1 : (d.read2 n).2.2.bufLen - (d.read2 n).2.2.bufOff = d.bufLen - d.bufOff ∧
          (d.read2 n).2.2.sLen - (d.read2 n).2.2.sI ≤ d.sLen - d.sI := by
        unfold Drained.read2
        by_cases he : d.sLen ≤ d.sI
        · simp [he]
        · simp only [he, if_false]
          constructor
          · trivial
          · show d.sLen - (d.sI + min n (d.sLen - d.sI)) ≤ d.sLen - d.sI
            omega
      omega

/-- C7: for a stream that holds the bytes `B` and whose read and close succeed, `drainBody`
returns no error and two streams that both hold `B`: reading either to its end yields `B`.  On
the memory the two streams share, after any sequence of `Read` calls on the two streams, in any
order and with any destination sizes, the bytes already delivered by a stream followed by what
reading it to its end then yields are `B`, for both streams; and a `Read` on one stream leaves
what the other has still to deliver as it is. -/
theorem drainBody_roundtrip (B : Bytes) :
    drainBody (.stream { data := B, readErr := none, closeErr := none }) =
        (.stream (Drained.init B).view1, .stream (Drained.init B).view2, none) ∧
      ReadAll (.stream (Drained.init B).view1) = .ret (B, none) ∧
      ReadAll (.stream (Drained.init B).view2) = .ret (B, none) ∧
      ∀ (ops : List ReadOp) (c : Nat),
        (((Drained.init B).run ops).2.2.readAll1 (B.length + 1) (c + 1)).map
            (fun rest => ((Drained.init B).run ops).1 ++ rest) = some B ∧
        (((Drained.init B).run ops).2.2.readAll2 (B.length + 1) (c + 1)).map
            (fun rest => ((Drained.init B).run ops).2.1 ++ rest) = some B ∧
        ∀ n, (((Drained.init B).run ops).2.2.read1 n).2.2.view2 =
              ((Drained.init B).run ops).2.2.view2 ∧
            (((Drained.init B).run ops).2.2.read2 n).2.2.view1 =
              ((Drained.init B).run ops).2.2.view1 := by
  have hv1 : (Drained.init B).view1.data = B := by simp [Drained.init, Drained.view1]
  have hv2 : (Drained.init B).view2.data = B := by simp [Drained.init, Drained.view2]
  refine ⟨?_, ?_, ?_, ?_⟩
  · simp [drainBody, Drained.init, Drained.view1, Drained.view2]
  · simp [ReadAll, Body.readToEnd, Drained.init, Drained.view1]
  · simp [ReadAll, Body.readToEnd, Drained.init, Drained.view2]
  · intro ops c
    obtain ⟨r1, r2⟩ := Drained.run_remaining ops (Drained.init B)
    obtain ⟨w1, w2⟩ := Drained.run_view ops (Drained.init B)
    have b1 : (Drained.init B).bufLen - (Drained.init B).bufOff = B.length := rfl
    have b2 : (Drained.init B).sLen - (Drained.init B).sI = B.length := rfl
    refine ⟨?_, ?_, ?_⟩
    · rw [Drained.readAll1_eq c _ _ (by omega)]
      simp only [Option.map_some', Option.some.injEq]
      rw [w1, hv1]
    · rw [Drained.readAll2_eq c _ _ (by omega)]
      simp only [Option.map_some', Option.some.injEq]
      rw [w2, hv2]
    · intro n
      exact ⟨(Drained.read1_view _ n).2, (Drained.read2_view _ n).2⟩

/-! ### A drain that fails -/

/-- C9 (the code at a failing stream): when reading `b` fails, and when closing `b` fails,
`drainBody` returns the error, nil as its first result and the stream `b`, read to where it
failed, as its second result. -/
theorem drainBody_failure (data : Bytes) (err : LibError) (closeErr : Option LibError) :
    drainBody (.stream { data := data, readErr := some err, closeErr := closeErr }) =
        (.nil, .stream { data := [], readErr := some err, closeErr := closeErr }, some err) ∧
      drainBody (.stream { data := data, readErr := none, closeErr := some err }) =
        (.nil, .stream { data := [], readErr := none, closeErr := some err }, some err) :=
  ⟨rfl, rfl⟩

/-- C1 (the code at a failing input): for the response of the test `read http error response
failed` (status 400, a body whose read fails) `Client.do` returns the `ClientError` with status
code 400 and message `read response error body failed` when `DumpRequest` is off, and panics when
`DumpRequest` is on: then it returns no `ClientError`. -/
theorem Client.do_error_status_dump_panics :
    (demoClient none demoUnreadable).do_ demoLib false (some ()) "" "" [] [] none
        (none : Option String) (none : Option String) =
      .ret { err := some { Url := "http://localhost:8080", StatusCode := 400,
                           Message := "read response error body failed",
                           Reason := some (.lib { text := "err" }) },
             vresp := none, verr := none, stdout := "" } ∧
    (demoClient none demoUnreadable).do_ demoLib true (some ()) "" "" [] [] none
        (none : Option String) (none : Option String) = .panic := by
  constructor <;> rfl

/-- C8 (the code at a failing input): for a response with status 500 whose body fails to be
read after the bytes `{}`, `Client.do` returns the error `read response error body failed` with
status code 500 when `DumpRequest` is off, and panics when it is on. -/
theorem Client.do_dump_differs :
    ((demoClient none
        { StatusCode := 500,
          Body := .stream { data := ['\x7b', '\x7d'], readErr := some { text := "err" },
                            closeErr := none } }).do_ demoLib false (some ()) "GET" "/x" [] []
        none (none : Option String) (none : Option String)) =
      .ret { err := some { Url := "http://localhost:8080/x", StatusCode := 500,
                           Message := "read response error body failed",
                           Reason := some (.lib { text := "err" }) },
             vresp := none, verr := none, stdout := "" } ∧
    ((demoClient none
        { StatusCode := 500,
          Body := .stream { data := ['\x7b', '\x7d'], readErr := some { text := "err" },
                            closeErr := none } }).do_ demoLib true (some ()) "GET" "/x" [] []
        none (none : Option String) (none : Option String)) = .panic := by
  constructor <;> rfl

/-! ### The request body in the dump -/

/-- C10 (the code at the failing inputs): for every request whose `Content-Type` contains
`application/json` and whose body holds the bytes `B`, `dumpRequest` returns, and the byte slice
it passes to `json.Indent` for the request is empty, whatever `B` is: `curlcmd` has read the body
to its end before. -/
theorem dumpRequest_request_indent {V R E : Type} (lib : Lib V R E) (req : Request)
    (resp : Response) (B : Bytes)
    (hct : stringsContains (req.Header.Get "Content-Type") "application/json" = true)
    (hbody : req.Body = .stream { data := B, readErr := none, closeErr := none }) :
    ∃ d, dumpRequest lib req resp = .ret d ∧ d.indented.head? = some [] := by
  obtain ⟨data, err, hra⟩ := ReadAll_drainBody_snd resp.Body
  have hc := curlcmd_req lib req
  have hcond : req.Method = "GET" ∨
      stringsContains (req.Header.Get "Content-Type") "application/json" = true ∨
      stringsContains (req.Header.Get "Content-Type") "application/x-www-form-urlencoded" = true :=
    Or.inr (Or.inl hct)
  unfold dumpRequest
  simp only [hcond, if_true]
  simp only [hra, hc, hct, if_true, hbody, Body.atEnd, Stream.atEnd, Body.readToEnd]
  exact ⟨_, rfl, rfl⟩

/-- C10 (witness): the request body `{"a":1}`. -/
theorem dumpRequest_request_indent_witness :
    ∃ d, dumpRequest demoLib (demoJSONRequest "\x7b\"a\":1\x7d".data) demoOK = .ret d ∧
      d.indented.head? = some [] :=
  dumpRequest_request_indent demoLib (demoJSONRequest "\x7b\"a\":1\x7d".data) demoOK
    "\x7b\"a\":1\x7d".data (by decide) rfl

/-! ### What holds when the drain of the response succeeds -/

theorem drainBody_fst_eq (b : Body) (hb : b ≠ .nil) (h : (drainBody b).2.2 = none) :
    (drainBody b).1 = b := by
  cases b with
  | nil => exact absurd rfl hb
  | noBody => rfl
  | stream s =>
    obtain ⟨d, re, ce⟩ := s
    cases re with
    | some e => simp [drainBody] at h
    | none =>
      cases ce with
      | some e => simp [drainBody] at h
      | none => rfl

theorem Client.respond_agree {V R E : Type} (lib : Lib V R E) (safeurl : String)
    (resp : Response) (vresp : Option R) (verr : Option E) (out1 out2 : String) :
    (Client.respond lib safeurl resp vresp verr out1).Agree
      (Client.respond lib safeurl resp vresp verr out2) := by
  unfold Client.respond
  dsimp only
  repeat' split
  all_goals first
    | exact ⟨rfl, rfl, rfl⟩
    | trivial

/-- With `DumpRequest` on, and a response whose body can be drained (its read and its close
succeed), the rest of `Client.do` answers as it does with `DumpRequest` off. -/
theorem Client.finish_dump_agree {V R E : Type} (lib : Lib V R E) (p : Prepared)
    (resp : Response) (vresp : Option R) (verr : Option E)
    (hreq : p.reqBody ≠ .nil) (hb : resp.Body ≠ .nil) (h : (drainBody resp.Body).2.2 = none) :
    (Client.finish lib true p resp vresp verr).Agree
      (Client.finish lib false { p with reqBody := .nil } resp vresp verr) := by
  obtain ⟨d, hd⟩ := dumpRequest_ret lib { p.req with Body := p.reqBody } resp hreq
  have hresp := dumpRequest_resp lib _ resp d hd
  rw [drainBody_fst_eq _ hb h] at hresp
  unfold Client.finish
  simp only [if_true, Bool.false_eq_true, if_false, hd, hresp]
  exact Client.respond_agree lib _ _ _ _ _ _

/-! ### Responses from 400 on -/

theorem Client.Do_body_ne_nil (c : Client) (req : Request) (resp : Response)
    (h : c.Do req = .ok resp) : resp.Body ≠ .nil := by
  unfold Client.Do at h
  cases hc : c.client req with
  | error err => rw [hc] at h; cases h
  | ok resp0 =>
    rw [hc] at h
    obtain ⟨code, b⟩ := resp0
    cases b <;> simp only [Except.ok.injEq] at h <;> subst h <;> simp

theorem Client.respond_error_status {V R E : Type} (lib : Lib V R E) (safeurl : String)
    (resp : Response) (vresp : Option R) (verr : Option E) (stdout : String)
    (hcode : resp.StatusCode ≥ 400) (hb : resp.Body ≠ .nil) :
    ∃ r e, Client.respond lib safeurl resp vresp verr stdout = .ret r ∧ r.err = some e ∧
      e.StatusCode = resp.StatusCode ∧ r.vresp = vresp ∧
      ∀ B, ReadAll resp.Body = .ret (B, none) →
        (verr = none → e.Unwrap = some (.errorsNew (String.mk B)) ∧ r.verr = none) ∧
        (∀ t, verr = some t → (lib.Unmarshal B t).2 = none →
          e.Unwrap = some (.errorsNew (String.mk B)) ∧ r.verr = some (lib.Unmarshal B t).1) ∧
        (∀ t err, verr = some t → (lib.Unmarshal B t).2 = some err →
          e.Unwrap = some (.lib err)) := by
  unfold Client.respond
  rw [isErrorCode_eq_true _ hcode]
  simp only [if_true]
  cases hr : ReadAll resp.Body with
  | panic =>
    exfalso
    cases hbody : resp.Body with
    | nil => exact hb hbody
    | noBody => rw [hbody] at hr; cases hr
    | stream s => rw [hbody] at hr; cases hr
  | ret x =>
    obtain ⟨B0, rerr⟩ := x
    cases rerr with
    | some err =>
      refine ⟨_, _, rfl, rfl, rfl, rfl, ?_⟩
      intro B hB
      cases hB
    | none =>
      cases verr with
      | none =>
        refine ⟨_, _, rfl, rfl, rfl, rfl, ?_⟩
        intro B hB
        simp only [Outcome.ret.injEq, Prod.mk.injEq, and_true] at hB
        subst hB
        exact ⟨fun _ => ⟨rfl, rfl⟩, fun t ht _ => (by cases ht), fun t err ht _ => (by cases ht)⟩
      | some t =>
        cases hu : (lib.Unmarshal B0 t).2 with
        | none =>
          refine ⟨{ err := some (NewClientError safeurl resp.StatusCode
                      "http returned error status code" (some (.errorsNew (String.mk B0)))),
                    vresp := vresp, verr := some (lib.Unmarshal B0 t).1, stdout := stdout },
                  _, ?_, rfl, rfl, rfl, ?_⟩
          · simp only [hu]
          · intro B hB
            simp only [Outcome.ret.injEq, Prod.mk.injEq, and_true] at hB
            subst hB
            refine ⟨fun h => (by cases h), fun t0 ht _ => ?_, fun t0 err ht he => ?_⟩
            · simp only [Option.some.injEq] at ht
              subst ht
              exact ⟨rfl, rfl⟩
            · simp only [Option.some.injEq] at ht
              subst ht
              rw [hu] at he
              cases he
        | some err =>
          refine ⟨{ err := some (NewClientError safeurl resp.StatusCode
                      "decode response body failed" (some (.lib err))),
                    vresp := vresp, verr := some (lib.Unmarshal B0 t).1, stdout := stdout },
                  _, ?_, rfl, rfl, rfl, ?_⟩
          · simp only [hu]
          · intro B hB
            simp only [Outcome.ret.injEq, Prod.mk.injEq, and_true] at hB
            subst hB
            refine ⟨fun h => (by cases h), fun t0 ht he => ?_, fun t0 err0 ht he => ?_⟩
            · simp only [Option.some.injEq] at ht
              subst ht
              rw [hu] at he
              cases he
            · simp only [Option.some.injEq] at ht
              subst ht
              rw [hu] at he
              simp only [Option.some.injEq] at he
              subst he
              rfl

/-- With `DumpRequest` off, or with a response whose body can be drained, a response with a
status code `s ≥ 400` makes `Client.do` return a `ClientError` with `StatusCode = s`; when the
body is read as `B`, its cause is `errors.New(string(B))` if no error target is given or `B` is
decoded into it, and the error of the decoder otherwise. -/
theorem Client.do_error_status {V R E : Type} (lib : Lib V R E) (dump : Bool) (c : Client)
    (ctx : Option Context) (method path : String) (query : Values) (headers : Header)
    (vbody : Option (VBody V)) (vresp : Option R) (verr : Option E) (p : Prepared)
    (resp : Response)
    (hp : c.prepare lib dump ctx method path query headers vbody = .ok p)
    (hdo : c.Do p.req = .ok resp) (hcode : resp.StatusCode ≥ 400)
    (hdrain : dump = true → (drainBody resp.Body).2.2 = none) :
    ∃ r e, c.do_ lib dump ctx method path query headers vbody vresp verr = .ret r ∧
      r.err = some e ∧ e.StatusCode = resp.StatusCode ∧ r.vresp = vresp ∧
      ∀ B, ReadAll resp.Body = .ret (B, none) →
        (verr = none → e.Unwrap = some (.errorsNew (String.mk B)) ∧ r.verr = none) ∧
        (∀ t, verr = some t → (lib.Unmarshal B t).2 = none →
          e.Unwrap = some (.errorsNew (String.mk B)) ∧ r.verr = some (lib.Unmarshal B t).1) ∧
        (∀ t err, verr = some t → (lib.Unmarshal B t).2 = some err →
          e.Unwrap = some (.lib err)) := by
  have hb := Client.Do_body_ne_nil c p.req resp hdo
  unfold Client.do_
  rw [hp]
  dsimp only
  rw [hdo]
  dsimp only
  unfold Client.finish
  cases dump with
  | false =>
    simp only [Bool.false_eq_true, if_false]
    exact Client.respond_error_status lib _ resp vresp verr _ hcode hb
  | true =>
    simp only [if_true]
    obtain ⟨body, req0, -, -, -, -, -, hrb⟩ :=
      Client.prepare_ok lib true c ctx method path query headers vbody p hp
    have hne : ({ p.req with Body := p.reqBody } : Request).Body ≠ .nil := by
      simp only [hrb, if_true]
      exact drainBody_snd_ne_nil _
    obtain ⟨d, hd⟩ := dumpRequest_ret lib { p.req with Body := p.reqBody } resp hne
    have hresp := dumpRequest_resp lib _ resp d hd
    rw [drainBody_fst_eq _ hb (hdrain rfl)] at hresp
    rw [hd]
    dsimp only
    rw [hresp]
    exact Client.respond_error_status lib _ resp vresp verr _ hcode hb

/-- With `DumpRequest` on, a response from 400 on whose body fails to be read or to be closed
makes the rest of `Client.do` panic, for every library, request and target. -/
theorem Client.finish_dump_panics {V R E : Type} (lib : Lib V R E) (p : Prepared)
    (resp : Response) (vresp : Option R) (verr : Option E) (s : Stream)
    (hbody : resp.Body = .stream s) (hfail : s.readErr ≠ none ∨ s.closeErr ≠ none)
    (hcode : resp.StatusCode ≥ 400) :
    Client.finish lib true p resp vresp verr = .panic := by
  unfold Client.finish
  simp only [if_true]
  cases hd : dumpRequest lib { p.req with Body := p.reqBody } resp with
  | panic => rfl
  | ret d =>
    have hresp := dumpRequest_resp lib _ resp d hd
    have hnil : (drainBody resp.Body).1 = .nil := by
      rw [hbody]
      obtain ⟨data, re, ce⟩ := s
      cases re with
      | some e => rfl
      | none =>
        cases ce with
        | some e => rfl
        | none => simp at hfail
    dsimp only
    unfold Client.respond
    have hc : d.resp.StatusCode = resp.StatusCode := by rw [hresp]
    have hbnil : d.resp.Body = .nil := by rw [hresp]; exact hnil
    rw [isErrorCode_eq_true _ (hc ▸ hcode)]
    simp only [if_true, hbnil, ReadAll, Body.readToEnd]

end HttpClient
